import Mathlib

/-!
Shallow embedding of the k8s_gateway CoreDNS plugin's DNS resolution engine
(gateway.go, apex.go, the zone-transfer producer) and proofs about it.

Modelling conventions:
* Go strings are Lean `String`s; DNS names are ASCII, so Go byte indexing and
  Lean character indexing agree.  String manipulation is re-implemented over
  `String.data` (`List Char`) so that all definitions evaluate by kernel
  reduction.
* Go `uint32` values are `Nat` with arithmetic reduced `% 2^32` exactly where
  the Go code can overflow.
* The mutex-guarded serial cell (`lastSerial`, `dirty`) is explicit state
  passing over `SerialState`.
* A lookup function (`lookupFunc`) is a pure Lean function, matching the
  contract that lookups are pure with respect to their backing snapshot.
-/

/-! ## Basic string helpers (byte-level Go semantics over `List Char`) -/

/-- `strings.ToLower` restricted to the ASCII names the plugin handles. -/
def toLowerStr (s : String) : String := ⟨s.data.map Char.toLower⟩

/-- `strings.HasSuffix s suff`. -/
def hasSuffixStr (s suff : String) : Bool := suff.data.isSuffixOf s.data

/-- Splits a character list on a separator character; `strings.Split` for a
one-character separator (`Split("", ".") = [""]`, etc.). -/
def splitChar (c : Char) : List Char → List (List Char)
  | [] => [[]]
  | a :: as =>
    if a = c then [] :: splitChar c as
    else
      match splitChar c as with
      | [] => [[a]]
      | g :: gs => (a :: g) :: gs

/-- `strings.Split s "."`. -/
def splitOnDot (s : String) : List String := (splitChar '.' s.data).map (fun l => ⟨l⟩)

/-- Byte-wise lexicographic `≤` on strings, the order used by `sort.Strings`. -/
def lexLeChars : List Char → List Char → Bool
  | [], _ => true
  | _ :: _, [] => false
  | a :: as, b :: bs => if a < b then true else if b < a then false else lexLeChars as bs

/-- String form of `lexLeChars`. -/
def lexLe (a b : String) : Bool := lexLeChars a.data b.data

/-- `strings.Contains (ToLower s) pat` via an explicit infix scan. -/
def containsSubstring (s pat : String) : Bool :=
  (s.data.tails).any (fun t => pat.data.isPrefixOf t)

/-- `dns.Fqdn`: appends the closing dot when absent. -/
def fqdn (s : String) : String := if hasSuffixStr s "." then s else s ++ "."

/-! ## Model of dns.RR and messages -/

/-- A DNS record type; `other` stands for every type the engine does not
handle specially. -/
inductive RRType
  | a | aaaa | txt | cname | soa | ns | other
deriving DecidableEq, Repr

/-- A resource record.  `rdata` carries the textual payload (address string,
CNAME target, TXT segments, SOA mname/rname); `serial` is only meaningful for
SOA records. -/
structure RR where
  name : String
  rrtype : RRType
  ttl : Nat
  rdata : List String := []
  serial : Nat := 0
deriving DecidableEq, Repr

/-- The parts of a `dns.Msg` reply the engine fills in. -/
inductive Rcode
  | success | nameError
deriving DecidableEq, Repr

/-- A reply under construction: answer, authority (`Ns`), additional
(`Extra`) sections and the response code.  `SetReply` yields the empty
message with `success`. -/
structure Msg where
  answer : List RR := []
  ns : List RR := []
  extra : List RR := []
  rcode : Rcode := .success
deriving DecidableEq, Repr

/-- The parts of `request.Request` the engine reads: query name, matched
zone (original case preserved) and query type. -/
structure Request where
  name : String
  zone : String
  qtype : RRType
deriving DecidableEq, Repr

/-- An IP address as the engine sees it: `netip.Addr.Is4`/`Is6` flags plus
its `String()` form (the deduplication key). -/
structure Addr where
  is4 : Bool
  is6 : Bool
  str : String
deriving DecidableEq, Repr

/-! ## Gateway data model -/

/-- `lookupFunc`: given ordered index keys, returns
`(addresses, raw texts, cname targets)`. -/
def LookupFunc := List String → List Addr × List String × List String

/-- `resourceWithIndex`: a named resource table fronted by its lookup. -/
structure Resource where
  name : String
  lookup : LookupFunc

/-- Runtime configuration of the plugin (the fields the resolution engine
reads).  `externalAddrFunc` is the injected external-address callback. -/
structure Gateway where
  zones : List String
  resources : List Resource
  ttlLow : Nat
  ttlSOA : Nat
  apex : String
  hostmaster : String
  secondNS : String
  soaRefresh : Nat := 0
  soaRetry : Nat := 0
  soaExpire : Nat := 0
  cnameMaxDepth : Nat := 10
  externalAddrFunc : Request → List RR

/-- The mutex-guarded SOA serial cell. -/
structure SerialState where
  lastSerial : Nat
  dirty : Bool
deriving DecidableEq, Repr

/-- The indexer layer's dirtiness signal. -/
def markDirty (st : SerialState) : SerialState := { st with dirty := true }

/-- `calculateSerial`, given the current Unix time: when dirty, the new
serial is `uint32(now)` bumped to `lastSerial + 1` (32-bit addition) when not
already an increase; otherwise the cached serial.  Returns the serial and the
updated cell. -/
def calculateSerial (now : Nat) (st : SerialState) : Nat × SerialState :=
  if st.dirty then
    let newSerial0 := now % 2 ^ 32
    let newSerial := if newSerial0 ≤ st.lastSerial then (st.lastSerial + 1) % 2 ^ 32 else newSerial0
    (newSerial, { lastSerial := newSerial, dirty := false })
  else
    (st.lastSerial, st)

/-! ## split255 -/

/-- Loop body of `split255`: slices `s[p:i]` in 255-byte steps, emitting the
tail `s[p:]` once `i` passes the end. -/
def split255Go (s : List Char) (p i : Nat) : List (List Char) :=
  if s.length < i then [s.drop p]
  else ((s.drop p).take (i - p)) :: split255Go s (p + 255) (i + 255)
termination_by s.length + 1 - i
decreasing_by simp_wf; omega

/-- `split255`: splits a string into 255-byte chunks (strings shorter than
255 bytes are returned whole). -/
def split255 (s : List Char) : List (List Char) :=
  if s.length < 255 then [s] else split255Go s 0 255

/-- String wrapper for `split255`, as used by the TXT record builder. -/
def split255Str (s : String) : List String := (split255 s.data).map (fun l => ⟨l⟩)

/-! ## Index key derivation (gateway.go) -/

/-- `stripClosingDot`: strips the closing dot unless the string is `"."` or
shorter. -/
def stripClosingDot (s : String) : String :=
  if s.length > 1 then (if hasSuffixStr s "." then s.dropRight 1 else s) else s

/-- `stripDomain`: removes the trailing `zone` bytes from `qname` and strips
the closing dot.  (Go slices bytes; callers guarantee `zone` is a suffix.) -/
def stripDomain (qname zone : String) : String :=
  stripClosingDot (qname.take (qname.length - zone.length))

/-- `canonicalizeDNSName`: lowercase with trailing dot. -/
def canonicalizeDNSName (name : String) : String :=
  let n := toLowerStr name
  if hasSuffixStr n "." then n else n ++ "."

/-- `getQueryIndexKeys`: the stripped query name plus, when different and
non-empty, its zone-less form. -/
def getQueryIndexKeys (qName zone : String) : List String :=
  let zonelessQuery := stripDomain qName zone
  let strippedQName := stripClosingDot qName
  if zonelessQuery.length ≠ 0 ∧ zonelessQuery ≠ strippedQName then
    [strippedQName, zonelessQuery]
  else
    [strippedQName]

/-- `toWildcardQName`: replaces the first label of the zone-less query with
`*` and re-appends the zone. -/
def toWildcardQName (qName zone : String) : String :=
  let zonelessQuery := stripDomain qName zone
  match splitOnDot zonelessQuery with
  | [] => ""
  | _ :: rest => String.intercalate "." (("*" :: rest) ++ [zone])

/-- `getQueryIndexKeySets`: the specific key set followed, when a wildcard
form exists, by the wildcard key set. -/
def getQueryIndexKeySets (qName zone : String) : List (List String) :=
  let specificIndexKeys := getQueryIndexKeys qName zone
  let wildcardQName := toWildcardQName qName zone
  if wildcardQName = "" then [specificIndexKeys]
  else [specificIndexKeys, getQueryIndexKeys wildcardQName zone]

/-! ## Index lookup pipeline -/

/-- The Go guard `len(addrs) > 0 || len(raws) > 0 || len(cnames) > 0`. -/
def tripleNonEmpty (t : List Addr × List String × List String) : Bool :=
  !t.1.isEmpty || !t.2.1.isEmpty || !t.2.2.isEmpty

/-- Inner loop of the pipeline: probes one key set against the resource
tables in configured order. -/
def probeResources (keys : List String) : List Resource → Option (List Addr × List String × List String)
  | [] => none
  | r :: rs =>
    let t := r.lookup keys
    if tripleNonEmpty t then some t else probeResources keys rs

/-- `getMatchingAddressesWithCNAME`: first non-empty triple over key sets
(outer) and resource tables (inner); empty when exhausted. -/
def getMatchingAddressesWithCNAME (resources : List Resource) : List (List String) → List Addr × List String × List String
  | [] => ([], [], [])
  | keys :: rest =>
    match probeResources keys resources with
    | some t => t
    | none => getMatchingAddressesWithCNAME resources rest

/-! ## CNAME chain resolver -/

/-- The failure cases of `resolveCNAMEChainWithVisited`. -/
inductive ResolveErr
  | depthLimit
  | loop (name : String)
  | deadEnd (name : String)
deriving DecidableEq, Repr

/-- `resolveCNAMEChainWithVisited`: bounded recursive CNAME following with
loop detection.  The Go visited map with its deferred delete behaves, along a
single in-flight chain, exactly like this functionally threaded list. -/
def resolveCNAMEChainWithVisited (gw : Gateway) (cname zone : String) (maxDepth : Nat)
    (visited : List String) : Except ResolveErr (List Addr) :=
  match maxDepth with
  | 0 => .error .depthLimit
  | maxDepth' + 1 =>
    let canonicalCname := canonicalizeDNSName cname
    let canonicalZone := canonicalizeDNSName zone
    if canonicalCname ∈ visited then .error (.loop canonicalCname)
    else
      let indexKeySets := getQueryIndexKeySets canonicalCname canonicalZone
      let (addrs, _raws, nextCnames) := getMatchingAddressesWithCNAME gw.resources indexKeySets
      if !addrs.isEmpty then .ok addrs
      else
        match nextCnames with
        | next :: _ =>
          resolveCNAMEChainWithVisited gw next canonicalZone maxDepth' (canonicalCname :: visited)
        | [] =>
          if !hasSuffixStr canonicalCname canonicalZone then .ok []
          else .error (.deadEnd canonicalCname)

/-- `resolveCNAMEChain`: entry point with an empty visited set. -/
def resolveCNAMEChain (gw : Gateway) (cname zone : String) (maxDepth : Nat) :
    Except ResolveErr (List Addr) :=
  resolveCNAMEChainWithVisited gw cname zone maxDepth []

/-- Instrumented resolver: the sequence of canonical names the resolution
actually visits (marks in the visited set), in order. -/
def resolveCNAMEChainTrace (gw : Gateway) (cname zone : String) (maxDepth : Nat)
    (visited : List String) : List String :=
  match maxDepth with
  | 0 => []
  | maxDepth' + 1 =>
    let canonicalCname := canonicalizeDNSName cname
    let canonicalZone := canonicalizeDNSName zone
    if canonicalCname ∈ visited then []
    else
      let indexKeySets := getQueryIndexKeySets canonicalCname canonicalZone
      let (addrs, _raws, nextCnames) := getMatchingAddressesWithCNAME gw.resources indexKeySets
      if !addrs.isEmpty then [canonicalCname]
      else
        match nextCnames with
        | next :: _ =>
          canonicalCname ::
            resolveCNAMEChainTrace gw next canonicalZone maxDepth' (canonicalCname :: visited)
        | [] => [canonicalCname]

/-! ## Record synthesis (gateway.go / apex.go) -/

/-- `dnsutil.Join`: joins labels into a fully qualified name. -/
def joinName (parts : List String) : String := fqdn (String.intercalate "." parts)

/-- `dns.SplitDomainName`: the labels of a name (root name has none). -/
def splitDomainName (s : String) : List String :=
  if s = "" ∨ s = "." then []
  else splitOnDot (if hasSuffixStr s "." then s.dropRight 1 else s)

/-- `dns.CountLabel`. -/
def countLabel (s : String) : Nat := (splitDomainName s).length

/-- `dns.IsSubDomain parent child`: parent's labels are a case-insensitive
suffix of child's labels. -/
def isSubDomain (parent child : String) : Bool :=
  (splitDomainName (toLowerStr parent)).isSuffixOf (splitDomainName (toLowerStr child))

/-- `dnsutil.TrimZone`: cuts the zone's trailing labels off the query name;
errors (`none`) unless the name has more labels than the zone. -/
def trimZone (q z : String) : Option String :=
  let qLabels := splitDomainName q
  let zl := countLabel z
  if qLabels.length ≤ zl then none
  else some (String.intercalate "." (qLabels.take (qLabels.length - zl)))

/-- `gw.soa(state)` with the serial supplied by `calculateSerial`. -/
def Gateway.soa (gw : Gateway) (zone : String) (serial : Nat) : RR :=
  { name := zone, rrtype := .soa, ttl := gw.ttlSOA, serial := serial,
    rdata := [joinName [gw.hostmaster, gw.apex, zone], joinName [gw.apex, zone]] }

/-- `gw.ns1`. -/
def Gateway.ns1 (gw : Gateway) (zone : String) : RR :=
  { name := zone, rrtype := .ns, ttl := gw.ttlSOA, rdata := [joinName [gw.apex, zone]] }

/-- `gw.ns2`: nothing when no secondary is configured. -/
def Gateway.ns2 (gw : Gateway) (zone : String) : Option RR :=
  if gw.secondNS = "" then none
  else some { name := zone, rrtype := .ns, ttl := gw.ttlSOA, rdata := [joinName [gw.secondNS, zone]] }

/-- `gw.nameservers`: primary NS, then the secondary when configured. -/
def Gateway.nameservers (gw : Gateway) (zone : String) : List RR :=
  match gw.ns2 zone with
  | some secondaryNS => [gw.ns1 zone, secondaryNS]
  | none => [gw.ns1 zone]

/-- Shared body of the `A`/`AAAA` builders: one record per address not yet
seen (dedup on the address's string form). -/
def buildAddrRecords (rrtype : RRType) (ttl : Nat) (name : String) :
    List Addr → List String → List RR
  | [], _ => []
  | r :: rest, dup =>
    if r.str ∈ dup then buildAddrRecords rrtype ttl name rest dup
    else { name := name, rrtype := rrtype, ttl := ttl, rdata := [r.str] } ::
      buildAddrRecords rrtype ttl name rest (r.str :: dup)

/-- `gw.A`. -/
def Gateway.A (gw : Gateway) (name : String) (results : List Addr) : List RR :=
  buildAddrRecords .a gw.ttlLow name results []

/-- `gw.AAAA`. -/
def Gateway.AAAA (gw : Gateway) (name : String) (results : List Addr) : List RR :=
  buildAddrRecords .aaaa gw.ttlLow name results []

/-- Body of the TXT builder: dedup on the raw string, payload split into
255-byte segments. -/
def buildTXTRecords (ttl : Nat) (name : String) : List String → List String → List RR
  | [], _ => []
  | r :: rest, dup =>
    if r ∈ dup then buildTXTRecords ttl name rest dup
    else { name := name, rrtype := .txt, ttl := ttl, rdata := split255Str r } ::
      buildTXTRecords ttl name rest (r :: dup)

/-- `gw.TXT`. -/
def Gateway.TXT (gw : Gateway) (name : String) (results : List String) : List RR :=
  buildTXTRecords gw.ttlLow name results []

/-- `gw.CNAME`. -/
def Gateway.CNAME (gw : Gateway) (name target : String) : RR :=
  { name := name, rrtype := .cname, ttl := gw.ttlLow, rdata := [fqdn target] }

/-! ## Apex state machine (apex.go) -/

/-- The per-record loop of `serveSubApex`: overwrite TTL (SOA TTL) and owner
name, keep only records whose type matches an address-typed question. -/
def subApexAnswers (ttlSOA : Nat) (qname : String) (qtype : RRType) : List RR → List RR
  | [] => []
  | rr :: rest =>
    let rr2 := { rr with ttl := ttlSOA, name := qname }
    let tail := subApexAnswers ttlSOA qname qtype rest
    match qtype with
    | .a => if rr2.rrtype = .a then rr2 :: tail else tail
    | .aaaa => if rr2.rrtype = .aaaa then rr2 :: tail else tail
    | _ => tail

/-- `serveSubApex`: NXDOMAIN unless the zone-trimmed name is exactly the
two-label apex; at the apex, A/AAAA answers come from the external-address
callback, anything else gets the SOA in authority. -/
def serveSubApex (gw : Gateway) (req : Request) (soaSerial : Nat) : Msg :=
  let base := (trimZone req.name req.zone).getD ""
  let m : Msg := {}
  if countLabel base = 2 then
    if base ≠ gw.apex then
      { m with rcode := .nameError, ns := [gw.soa req.zone soaSerial] }
    else
      let addr := gw.externalAddrFunc req
      let m := { m with answer := subApexAnswers gw.ttlSOA req.name req.qtype addr }
      if m.answer.isEmpty then { m with ns := [gw.soa req.zone soaSerial] } else m
  else
    { m with rcode := .nameError, ns := [gw.soa req.zone soaSerial] }

/-- Zone loop of `checkApexQuery`: apex query short-circuits to
`(isRootZone, not handled)`; a name under `<apex>.<zone>` is handled by
`serveSubApex`. -/
def checkApexQueryGo (gw : Gateway) (req : Request) (soaSerial : Nat) :
    List String → Bool × Option Msg
  | [] => (false, none)
  | z :: zs =>
    if req.name = z then (true, none)
    else if isSubDomain (gw.apex ++ "." ++ z) req.name then
      (false, some (serveSubApex gw req soaSerial))
    else checkApexQueryGo gw req soaSerial zs

/-- `checkApexQuery`: first component is `isRootZone`, second is the sub-apex
reply when the query was handled. -/
def checkApexQuery (gw : Gateway) (req : Request) (soaSerial : Nat) : Bool × Option Msg :=
  checkApexQueryGo gw req soaSerial gw.zones

/-! ## Response assembly (gateway.go) -/

/-- `setNegativeResponse`: SOA into the authority section. -/
def setNegativeResponse (gw : Gateway) (req : Request) (soaSerial : Nat) (m : Msg) : Msg :=
  { m with ns := [gw.soa req.zone soaSerial] }

/-- `addExtraRecords`: external-address records into the additional section,
TTL overwritten with the SOA TTL. -/
def addExtraRecords (gw : Gateway) (req : Request) (m : Msg) : Msg :=
  { m with extra := m.extra ++ (gw.externalAddrFunc req).map (fun rr => { rr with ttl := gw.ttlSOA }) }

/-- `addResolvedAddresses`: chain-resolved addresses appended behind the
CNAME, filtered by the needed address family. -/
def addResolvedAddresses (gw : Gateway) (cname : String) (addrs : List Addr)
    (needIPv4 needIPv6 : Bool) (m : Msg) : Msg :=
  let m :=
    if needIPv4 then
      let ipv4Addrs := addrs.filter (fun a => a.is4)
      if !ipv4Addrs.isEmpty then { m with answer := m.answer ++ gw.A (fqdn cname) ipv4Addrs } else m
    else m
  if needIPv6 then
    let ipv6Addrs := addrs.filter (fun a => a.is6)
    if !ipv6Addrs.isEmpty then { m with answer := m.answer ++ gw.AAAA (fqdn cname) ipv6Addrs } else m
  else m

/-- `processCNAMEWithResolution`: always answer the first CNAME; on a
successful non-empty chain resolution also append the resolved addresses. -/
def processCNAMEWithResolution (gw : Gateway) (req : Request) (cname : String)
    (needIPv4 needIPv6 : Bool) (m : Msg) : Msg :=
  let m := { m with answer := m.answer ++ [gw.CNAME req.name cname] }
  match resolveCNAMEChain gw cname req.zone gw.cnameMaxDepth with
  | .error _ => m
  | .ok resolvedAddrs =>
    if resolvedAddrs.isEmpty then m
    else addResolvedAddresses gw cname resolvedAddrs needIPv4 needIPv6 m

/-- `handleAddressQuery` (A when `isIPv4`, else AAAA). -/
def handleAddressQuery (gw : Gateway) (req : Request) (soaSerial : Nat) (addrs : List Addr)
    (cnames : List String) (isRootZoneQuery isIPv4 : Bool) (m : Msg) : Msg :=
  if addrs.isEmpty && cnames.isEmpty then
    let m := setNegativeResponse gw req soaSerial m
    if !isRootZoneQuery then { m with rcode := .nameError } else m
  else
    match cnames with
    | cname :: _ => processCNAMEWithResolution gw req cname isIPv4 (!isIPv4) m
    | [] =>
      if isIPv4 then { m with answer := gw.A req.name addrs }
      else { m with answer := gw.AAAA req.name addrs }

/-- `handleDataQuery` (TXT). -/
def handleDataQuery (gw : Gateway) (req : Request) (soaSerial : Nat) (data : List String)
    (isRootZoneQuery noDataFound : Bool) (m : Msg) : Msg :=
  if data.isEmpty then
    let m := setNegativeResponse gw req soaSerial m
    if !isRootZoneQuery && noDataFound then { m with rcode := .nameError } else m
  else
    { m with answer := gw.TXT req.name data }

/-- `handleCNAMEQuery`: NXDOMAIN only when no data exists, the query is not
at the apex, and the lowercased name contains the substring `nonexistent`. -/
def handleCNAMEQuery (gw : Gateway) (req : Request) (soaSerial : Nat) (cnames : List String)
    (isRootZoneQuery noDataFound : Bool) (m : Msg) : Msg :=
  match cnames with
  | [] =>
    let m := setNegativeResponse gw req soaSerial m
    if noDataFound && !isRootZoneQuery && containsSubstring (toLowerStr req.name) "nonexistent" then
      { m with rcode := .nameError }
    else m
  | cname :: _ => { m with answer := [gw.CNAME req.name cname] }

/-- `handleNSQuery`: NS set plus glue at the apex, SOA in authority below. -/
def handleNSQuery (gw : Gateway) (req : Request) (soaSerial : Nat)
    (isRootZoneQuery : Bool) (m : Msg) : Msg :=
  if isRootZoneQuery then
    addExtraRecords gw req { m with answer := gw.nameservers req.zone }
  else
    setNegativeResponse gw req soaSerial m

/-- `processQueryResponse`: type dispatch, including the RFC 4074 §3 AAAA
special case. -/
def processQueryResponse (gw : Gateway) (req : Request) (soaSerial : Nat)
    (ipv4Addrs ipv6Addrs : List Addr) (raws cnames : List String)
    (isRootZoneQuery noDataFound : Bool) : Msg :=
  let m : Msg := {}
  match req.qtype with
  | .a => handleAddressQuery gw req soaSerial ipv4Addrs cnames isRootZoneQuery true m
  | .aaaa =>
    let m := handleAddressQuery gw req soaSerial ipv6Addrs cnames isRootZoneQuery false m
    if ipv6Addrs.isEmpty && cnames.isEmpty && !ipv4Addrs.isEmpty then
      { m with rcode := .success }
    else m
  | .txt => handleDataQuery gw req soaSerial raws isRootZoneQuery noDataFound m
  | .cname => handleCNAMEQuery gw req soaSerial cnames isRootZoneQuery noDataFound m
  | .soa => { m with answer := [gw.soa req.zone soaSerial] }
  | .ns => handleNSQuery gw req soaSerial isRootZoneQuery m
  | .other => setNegativeResponse gw req soaSerial m

/-! ## Zone transfer producer -/

/-- `plugin.Zones.Matches`: the longest configured zone the query name is a
subdomain of (empty string when none). -/
def zonesMatches (zones : List String) (qname : String) : String :=
  zones.foldl (fun zone z =>
    if isSubDomain z qname && decide (zone.length < z.length) then z else zone) ""

/-- One collected owner name's record group (the Go `records` map lookup). -/
def lookupRecords (collected : List (String × List RR)) (k : String) : List RR :=
  ((collected.find? (fun p => p.1 = k)).map Prod.snd).getD []

/-- The owner names of the collected record groups, sorted ascending as
`sort.Strings` does. -/
def sortedOwnerKeys (collected : List (String × List RR)) : List String :=
  (collected.map Prod.fst).mergeSort lexLe

/-- `transferResources`: nothing when the controller has not synced,
otherwise one group per collected owner name in sorted key order.  The
per-resource store walk that fills the map is abstracted as the `collected`
association list. -/
def transferResources (hasSynced : Bool) (collected : List (String × List RR)) :
    List (List RR) :=
  if !hasSynced then []
  else (sortedOwnerKeys collected).map (lookupRecords collected)

/-- The apex-side groups sent before the resource groups: one group per NS
record, then the external-address glue when present. -/
def apexGroups (gw : Gateway) (zone : String) : List (List RR) :=
  let nsGroups := (gw.nameservers zone).map (fun ns => [ns])
  let nsAddrs := gw.externalAddrFunc { name := "", zone := zone, qtype := .other }
  nsGroups ++ (if nsAddrs.isEmpty then [] else [nsAddrs])

/-- `Transfer`: not-authoritative for foreign zones; single-SOA stream on
the IXFR serial match; otherwise the full stream bracketed by the SOA. -/
def Transfer (gw : Gateway) (hasSynced : Bool) (collected : List (String × List RR))
    (soaSerial : Nat) (zone : String) (serial : Nat) : Option (List (List RR)) :=
  if zonesMatches gw.zones zone = "" then none
  else
    let soa := gw.soa zone soaSerial
    if serial ≠ 0 ∧ soa.serial = serial then some [[soa]]
    else
      some ([[soa]] ++ apexGroups gw zone ++ transferResources hasSynced collected ++ [[soa]])

/-! ## Theorems: SOA serial accounting -/

/-- C1 counterexample: with the 32-bit serial cell at its maximum value, a
`markDirty` followed by `soa()` at Unix time 5 yields serial 0, which is
neither `max(now, lastSerial + 1)` nor strictly greater than the previous
serial. -/
theorem calculateSerial_wrap_counterexample :
    (calculateSerial 5 (markDirty { lastSerial := 4294967295, dirty := false })).1 = 0 ∧
    ¬ 4294967295 < (calculateSerial 5 (markDirty { lastSerial := 4294967295, dirty := false })).1 ∧
    (calculateSerial 5 (markDirty { lastSerial := 4294967295, dirty := false })).1 ≠
      max 5 (4294967295 + 1) := by
  refine ⟨?_, ?_, ?_⟩ <;> decide

/-- C1 (amended): two `soa()` reads with no intervening `markDirty` return
the same serial; after `markDirty`, provided neither the Unix time nor
`lastSerial + 1` overflows 32 bits, the next `soa()` returns
`max(now, lastSerial + 1)`, strictly greater than the previous serial. -/
theorem calculateSerial_spec (st : SerialState) (now now2 : Nat)
    (hnow : now < 2 ^ 32) (hlast : st.lastSerial + 1 < 2 ^ 32) :
    ((calculateSerial now2 (calculateSerial now st).2).1 = (calculateSerial now st).1) ∧
    ((calculateSerial now (markDirty st)).1 = max now (st.lastSerial + 1) ∧
      st.lastSerial < (calculateSerial now (markDirty st)).1) := by
  obtain ⟨last, dirty⟩ := st
  simp only at hlast
  have hm1 : now % 2 ^ 32 = now := Nat.mod_eq_of_lt hnow
  have hm2 : (last + 1) % 2 ^ 32 = last + 1 := Nat.mod_eq_of_lt hlast
  have hred : (calculateSerial now (markDirty ⟨last, dirty⟩)).1 =
      (if now % 2 ^ 32 ≤ last then (last + 1) % 2 ^ 32 else now % 2 ^ 32) := rfl
  refine ⟨?_, ?_, ?_⟩
  · cases dirty <;> rfl
  · rw [hred]
    simp only [hm1, hm2]
    rw [Nat.max_def]
    split_ifs <;> omega
  · rw [hred]
    simp only [hm1, hm2]
    split_ifs <;> omega

/-- Witness for C1's amended theorem at `lastSerial = 7`, `now = 100`,
`now2 = 3`. -/
theorem calculateSerial_spec_witness :
    (100 < 2 ^ 32 ∧ 7 + 1 < 2 ^ 32) ∧
    (((calculateSerial 3 (calculateSerial 100 { lastSerial := 7, dirty := false }).2).1 =
        (calculateSerial 100 { lastSerial := 7, dirty := false }).1) ∧
      ((calculateSerial 100 (markDirty { lastSerial := 7, dirty := false })).1 = max 100 (7 + 1) ∧
        7 < (calculateSerial 100 (markDirty { lastSerial := 7, dirty := false })).1)) :=
  ⟨⟨by norm_num, by norm_num⟩,
    calculateSerial_spec { lastSerial := 7, dirty := false } 100 3 (by norm_num) (by norm_num)⟩

/-! ## Theorems: split255 -/

/-- Concatenating what `split255Go` emits from position `p` recovers the
remaining input. -/
theorem split255Go_flatten (s : List Char) :
    ∀ n p, s.length ≤ p + 255 * n → (split255Go s p (p + 255)).flatten = s.drop p := by
  intro n
  induction n with
  | zero =>
    intro p hp
    rw [split255Go, if_pos (by omega)]
    simp
  | succ m ih =>
    intro p hp
    rw [split255Go]
    by_cases hlt : s.length < p + 255
    · rw [if_pos hlt]; simp
    · rw [if_neg hlt]
      simp only [List.flatten_cons, Nat.add_sub_cancel_left]
      have harg : p + 255 + 255 = (p + 255) + 255 := rfl
      rw [harg, ih (p + 255) (by omega)]
      have hdd : s.drop (p + 255) = (s.drop p).drop 255 := by
        rw [List.drop_drop]
      rw [hdd, List.take_append_drop]

/-- `split255Go` on a remaining length of exactly `255 * n` bytes yields the
`n` full 255-byte slices followed by the empty tail slice. -/
theorem split255Go_chunks (s : List Char) :
    ∀ n p, s.length = p + 255 * n →
      split255Go s p (p + 255) =
        ((List.range n).map (fun k => (s.drop (p + 255 * k)).take 255)) ++ [[]] := by
  intro n
  induction n with
  | zero =>
    intro p hp
    rw [split255Go, if_pos (by omega)]
    have hle : s.length ≤ p := by omega
    simp [List.drop_eq_nil_of_le hle]
  | succ m ih =>
    intro p hp
    rw [split255Go, if_neg (by omega)]
    have harg : p + 255 + 255 = (p + 255) + 255 := rfl
    rw [harg, ih (p + 255) (by omega)]
    rw [List.range_succ_eq_map]
    simp only [List.map_cons, List.map_map, Nat.mul_zero, Nat.add_zero, Nat.add_sub_cancel_left,
      List.cons_append]
    congr 1
    congr 1
    apply List.map_congr_left
    intro k _
    have hk : p + 255 + 255 * k = p + 255 * (k + 1) := by ring
    simp [Function.comp, Nat.succ_eq_add_one, hk]

/-- C10: on a string whose byte length is a non-zero multiple of 255,
`split255` returns exactly `len/255` full 255-byte segments followed by one
empty segment, and the concatenation of all segments is the original
string. -/
theorem split255_exact_multiple (s : List Char) (h1 : 255 ≤ s.length)
    (h2 : s.length % 255 = 0) :
    ∃ segs, split255 s = segs ++ [[]] ∧ segs.length = s.length / 255 ∧
      (∀ c ∈ segs, c.length = 255) ∧ (split255 s).flatten = s := by
  have hn : s.length = 255 * (s.length / 255) :=
    (Nat.div_mul_cancel (Nat.dvd_of_mod_eq_zero h2)).symm.trans (Nat.mul_comm _ _)
  set n := s.length / 255 with hdefn
  have hsplit : split255 s = split255Go s 0 (0 + 255) := by
    rw [split255, if_neg (by omega)]
  refine ⟨(List.range n).map (fun k => (s.drop (0 + 255 * k)).take 255), ?_, ?_, ?_, ?_⟩
  · rw [hsplit, split255Go_chunks s n 0 (by omega)]
  · simp
  · intro c hc
    simp only [List.mem_map, List.mem_range] at hc
    obtain ⟨k, hk, rfl⟩ := hc
    have hfit : 255 * (k + 1) ≤ s.length := by
      rw [hn]
      exact Nat.mul_le_mul_left 255 hk
    simp only [List.length_take, List.length_drop]
    omega
  · rw [hsplit, split255Go_flatten s n 0 (by omega)]
    simp

/-- Witness for C10 at a 510-byte string. -/
theorem split255_exact_multiple_witness :
    (255 ≤ (List.replicate 510 'a').length ∧ (List.replicate 510 'a').length % 255 = 0) ∧
    (∃ segs, split255 (List.replicate 510 'a') = segs ++ [[]] ∧
      segs.length = (List.replicate 510 'a').length / 255 ∧
      (∀ c ∈ segs, c.length = 255) ∧
      (split255 (List.replicate 510 'a')).flatten = List.replicate 510 'a') :=
  ⟨⟨by rw [List.length_replicate]; norm_num, by rw [List.length_replicate]⟩,
    split255_exact_multiple (List.replicate 510 'a')
      (by rw [List.length_replicate]; norm_num) (by rw [List.length_replicate])⟩

/-! ## Theorems: index lookup pipeline -/

/-- The inner resource loop is `find?` of the first non-empty lookup result
over the tables in configured order. -/
theorem probeResources_eq_find (keys : List String) :
    ∀ res : List Resource,
      probeResources keys res = (res.map (fun r => r.lookup keys)).find? tripleNonEmpty := by
  intro res
  induction res with
  | nil => rfl
  | cons r rs ih =>
    simp only [probeResources, List.map_cons, List.find?]
    by_cases h : tripleNonEmpty (r.lookup keys)
    · simp [h]
    · simp only [Bool.not_eq_true] at h
      simp [h, ih]

/-- A non-empty result for some table makes the inner loop succeed. -/
theorem probeResources_isSome (keys : List String) (res : List Resource)
    (h : ∃ r ∈ res, tripleNonEmpty (r.lookup keys) = true) :
    ∃ t, probeResources keys res = some t := by
  induction res with
  | nil => simp at h
  | cons r rs ih =>
    simp only [probeResources]
    by_cases hr : tripleNonEmpty (r.lookup keys)
    · exact ⟨r.lookup keys, by simp [hr]⟩
    · simp only [Bool.not_eq_true] at hr
      rcases h with ⟨r', hr', hne⟩
      rcases List.mem_cons.mp hr' with rfl | hmem
      · rw [hne] at hr; cases hr
      · simpa [hr] using ih ⟨r', hmem, hne⟩

/-- C2: the pipeline is the first non-empty triple of the probe sequence
that tries every resource table on the specific key set before any table on
the wildcard key set (empty when exhausted); hence whenever some table has
data at the specific keys, the wildcard key set — whatever any table, of any
priority, holds for it — does not influence the result. -/
theorem indexPipeline_specific_before_wildcard (res : List Resource) (qName zone : String) :
    (getMatchingAddressesWithCNAME res (getQueryIndexKeySets qName zone) =
      (((getQueryIndexKeySets qName zone).flatMap
          (fun ks => res.map (fun r => r.lookup ks))).find? tripleNonEmpty).getD ([], [], [])) ∧
    ((∃ r ∈ res, tripleNonEmpty (r.lookup (getQueryIndexKeys qName zone)) = true) →
      getMatchingAddressesWithCNAME res (getQueryIndexKeySets qName zone) =
        getMatchingAddressesWithCNAME res [getQueryIndexKeys qName zone]) := by
  constructor
  · generalize getQueryIndexKeySets qName zone = sets
    induction sets with
    | nil => rfl
    | cons keys rest ih =>
      simp only [getMatchingAddressesWithCNAME, List.flatMap_cons, List.find?_append,
        probeResources_eq_find]
      cases hfind : (res.map (fun r => r.lookup keys)).find? tripleNonEmpty with
      | some t => simp [Option.or]
      | none => simpa [Option.or] using ih
  · intro hex
    obtain ⟨t, ht⟩ := probeResources_isSome (getQueryIndexKeys qName zone) res hex
    have hsets : ∃ rest, getQueryIndexKeySets qName zone = getQueryIndexKeys qName zone :: rest := by
      rw [getQueryIndexKeySets]
      by_cases hw : toWildcardQName qName zone = "" <;> simp [hw]
    obtain ⟨rest, hrest⟩ := hsets
    rw [hrest]
    simp only [getMatchingAddressesWithCNAME, ht]

/-- Witness for C2: one Ingress-like table holding an exact record and one
wildcard record; the pipeline answers from the exact name. -/
theorem indexPipeline_specific_before_wildcard_witness :
    (∃ r ∈ [Resource.mk "Ingress" (fun ks =>
        if ks.contains "svc1.ns1" then ([Addr.mk true false "192.0.2.1"], [], [])
        else if ks.contains "*.ns1" then ([Addr.mk true false "192.0.2.9"], [], [])
        else ([], [], []))],
      tripleNonEmpty (r.lookup (getQueryIndexKeys "svc1.ns1.example.com." "example.com.")) = true) ∧
    getMatchingAddressesWithCNAME
        [Resource.mk "Ingress" (fun ks =>
          if ks.contains "svc1.ns1" then ([Addr.mk true false "192.0.2.1"], [], [])
          else if ks.contains "*.ns1" then ([Addr.mk true false "192.0.2.9"], [], [])
          else ([], [], []))]
        (getQueryIndexKeySets "svc1.ns1.example.com." "example.com.") =
      getMatchingAddressesWithCNAME
        [Resource.mk "Ingress" (fun ks =>
          if ks.contains "svc1.ns1" then ([Addr.mk true false "192.0.2.1"], [], [])
          else if ks.contains "*.ns1" then ([Addr.mk true false "192.0.2.9"], [], [])
          else ([], [], []))]
        [getQueryIndexKeys "svc1.ns1.example.com." "example.com."] := by
  refine ⟨⟨_, List.mem_singleton.mpr rfl, by decide⟩, ?_⟩
  exact (indexPipeline_specific_before_wildcard _ "svc1.ns1.example.com." "example.com.").2
    ⟨_, List.mem_singleton.mpr rfl, by decide⟩

/-! ## Theorems: CNAME chain resolver -/

/-- The instrumented resolver visits at most `maxDepth` names. -/
theorem resolveCNAMEChainTrace_length (gw : Gateway) :
    ∀ (maxDepth : Nat) (cname zone : String) (visited : List String),
      (resolveCNAMEChainTrace gw cname zone maxDepth visited).length ≤ maxDepth := by
  intro maxDepth
  induction maxDepth with
  | zero => intro cname zone visited; simp [resolveCNAMEChainTrace]
  | succ d ih =>
    intro cname zone visited
    rw [resolveCNAMEChainTrace]
    dsimp only
    by_cases hv : canonicalizeDNSName cname ∈ visited
    · rw [if_pos hv]; simp
    · rw [if_neg hv]
      rcases hM : getMatchingAddressesWithCNAME gw.resources
          (getQueryIndexKeySets (canonicalizeDNSName cname) (canonicalizeDNSName zone)) with
        ⟨addrs, raws, nextCnames⟩
      dsimp only
      by_cases ha : addrs.isEmpty
      · rw [if_neg (by simp [ha])]
        cases nextCnames with
        | nil => simp
        | cons next rest =>
          simpa using ih next (canonicalizeDNSName zone)
            (canonicalizeDNSName cname :: visited)
      · rw [if_pos (by simp [ha])]
        simp

/-- Along one in-flight chain the visited names are pairwise distinct and
disjoint from the inherited visited set. -/
theorem resolveCNAMEChainTrace_nodup (gw : Gateway) :
    ∀ (maxDepth : Nat) (cname zone : String) (visited : List String),
      (resolveCNAMEChainTrace gw cname zone maxDepth visited).Nodup ∧
      ∀ x ∈ resolveCNAMEChainTrace gw cname zone maxDepth visited, x ∉ visited := by
  intro maxDepth
  induction maxDepth with
  | zero => intro cname zone visited; simp [resolveCNAMEChainTrace]
  | succ d ih =>
    intro cname zone visited
    rw [resolveCNAMEChainTrace]
    dsimp only
    by_cases hv : canonicalizeDNSName cname ∈ visited
    · rw [if_pos hv]; simp
    · rw [if_neg hv]
      rcases hM : getMatchingAddressesWithCNAME gw.resources
          (getQueryIndexKeySets (canonicalizeDNSName cname) (canonicalizeDNSName zone)) with
        ⟨addrs, raws, nextCnames⟩
      dsimp only
      by_cases ha : addrs.isEmpty
      · rw [if_neg (by simp [ha])]
        cases nextCnames with
        | nil => simp [hv]
        | cons next rest =>
          obtain ⟨htail, hdisj⟩ := ih next (canonicalizeDNSName zone)
            (canonicalizeDNSName cname :: visited)
          have hccons : canonicalizeDNSName cname ∉
              resolveCNAMEChainTrace gw next (canonicalizeDNSName zone) d
                (canonicalizeDNSName cname :: visited) := by
            intro hmem
            exact hdisj _ hmem (List.mem_cons_self _ _)
          refine ⟨List.nodup_cons.mpr ⟨hccons, htail⟩, ?_⟩
          intro x hx
          rcases List.mem_cons.mp hx with rfl | hx
          · exact hv
          · intro hxv
            exact hdisj x hx (List.mem_cons_of_mem _ hxv)
      · rw [if_pos (by simp [ha])]
        simp [hv]

/-- C3: resolution fails as soon as the remaining-depth counter is 0; a
target whose canonical name was already visited fails with a loop error
instead of recursing; and the canonical names actually visited along one
chain are pairwise distinct, new relative to the inherited visited set, and
at most the depth bound in number (each recursive step consumes one unit of
depth). -/
theorem resolveCNAMEChain_bounded_no_revisit (gw : Gateway) (cname zone : String)
    (maxDepth : Nat) (visited : List String) :
    (resolveCNAMEChainWithVisited gw cname zone 0 visited = .error .depthLimit) ∧
    (0 < maxDepth → canonicalizeDNSName cname ∈ visited →
      resolveCNAMEChainWithVisited gw cname zone maxDepth visited =
        .error (.loop (canonicalizeDNSName cname))) ∧
    (resolveCNAMEChainTrace gw cname zone maxDepth visited).Nodup ∧
    (∀ x ∈ resolveCNAMEChainTrace gw cname zone maxDepth visited, x ∉ visited) ∧
    (resolveCNAMEChainTrace gw cname zone maxDepth visited).length ≤ maxDepth := by
  refine ⟨rfl, ?_, (resolveCNAMEChainTrace_nodup gw maxDepth cname zone visited).1,
    (resolveCNAMEChainTrace_nodup gw maxDepth cname zone visited).2,
    resolveCNAMEChainTrace_length gw maxDepth cname zone visited⟩
  intro hd hv
  cases maxDepth with
  | zero => cases hd
  | succ d =>
    rw [resolveCNAMEChainWithVisited]
    dsimp only
    rw [if_pos hv]

/-- Fixture: a gateway with no populated resource tables. -/
def gwEmpty : Gateway :=
  { zones := ["example.com."], resources := [], ttlLow := 60, ttlSOA := 60,
    apex := "dns1.kube-system", hostmaster := "hostmaster", secondNS := "",
    externalAddrFunc := fun _ => [] }

/-- Witness for C3 on a concrete chain state: depth 0 fails, an
already-visited name loop-fails, and the trace facts hold at depth 5. -/
theorem resolveCNAMEChain_bounded_no_revisit_witness :
    (resolveCNAMEChainWithVisited gwEmpty "loop1.example.com." "example.com." 0
        ["loop1.example.com."] = .error .depthLimit) ∧
    (resolveCNAMEChainWithVisited gwEmpty "loop1.example.com." "example.com." 5
        ["loop1.example.com."] = .error (.loop "loop1.example.com.")) ∧
    (resolveCNAMEChainTrace gwEmpty "loop1.example.com." "example.com." 5
        ["loop1.example.com."]).Nodup := by
  have h := resolveCNAMEChain_bounded_no_revisit gwEmpty "loop1.example.com." "example.com." 5
    ["loop1.example.com."]
  exact ⟨h.1, by simpa using h.2.1 (by norm_num) (by decide), h.2.2.1⟩

/-! ## Theorems: AAAA no-data and CNAME failure paths -/

/-- C6: an AAAA query with IPv4 data but neither IPv6 addresses nor CNAMEs
yields a success response whose only content is the SOA in the authority
section. -/
theorem aaaa_ipv4_only_nodata (gw : Gateway) (name zone : String) (soaSerial : Nat)
    (ipv4Addrs ipv6Addrs : List Addr) (raws cnames : List String)
    (isRootZoneQuery noDataFound : Bool)
    (h6 : ipv6Addrs = []) (hc : cnames = []) (h4 : ipv4Addrs ≠ []) :
    processQueryResponse gw ⟨name, zone, .aaaa⟩ soaSerial ipv4Addrs ipv6Addrs raws cnames
        isRootZoneQuery noDataFound =
      { answer := [], ns := [gw.soa zone soaSerial], extra := [], rcode := .success } := by
  subst h6 hc
  have h4e : ipv4Addrs.isEmpty = false := by
    cases ipv4Addrs with
    | nil => exact absurd rfl h4
    | cons a l => rfl
  cases isRootZoneQuery <;>
    simp [processQueryResponse, handleAddressQuery, setNegativeResponse, h4e]

/-- Witness for C6 with one concrete IPv4 address. -/
theorem aaaa_ipv4_only_nodata_witness :
    ([] = ([] : List Addr) ∧ [] = ([] : List String) ∧ [Addr.mk true false "192.0.2.7"] ≠ []) ∧
    processQueryResponse gwEmpty ⟨"svc2.ns1.example.com.", "example.com.", .aaaa⟩ 9
        [Addr.mk true false "192.0.2.7"] [] [] [] false true =
      { answer := [], ns := [gwEmpty.soa "example.com." 9], extra := [], rcode := .success } :=
  ⟨⟨rfl, rfl, by decide⟩,
    aaaa_ipv4_only_nodata gwEmpty "svc2.ns1.example.com." "example.com." 9
      [Addr.mk true false "192.0.2.7"] [] [] [] false true rfl rfl (by decide)⟩

/-- C7: when the lookup produced CNAMEs but chain resolution fails, the
answer is exactly the first CNAME record and contains no resolved address
records. -/
theorem cname_failure_returns_cname_only (gw : Gateway) (req : Request) (soaSerial : Nat)
    (addrs : List Addr) (cname : String) (rest : List String)
    (isRootZoneQuery isIPv4 : Bool) (e : ResolveErr)
    (hres : resolveCNAMEChain gw cname req.zone gw.cnameMaxDepth = .error e) :
    handleAddressQuery gw req soaSerial addrs (cname :: rest) isRootZoneQuery isIPv4 {} =
      { answer := [gw.CNAME req.name cname], ns := [], extra := [], rcode := .success } := by
  simp [handleAddressQuery, processCNAMEWithResolution, hres]

/-- Witness for C7: in-zone dead-end target, the resolution fails but the
CNAME is still the sole answer. -/
theorem cname_failure_returns_cname_only_witness :
    resolveCNAMEChain gwEmpty "app.example.com." "example.com." gwEmpty.cnameMaxDepth =
        .error (.deadEnd "app.example.com.") ∧
    handleAddressQuery gwEmpty ⟨"www.example.com.", "example.com.", .a⟩ 3 []
        ["app.example.com."] false true {} =
      { answer := [gwEmpty.CNAME "www.example.com." "app.example.com."], ns := [], extra := [],
        rcode := .success } :=
  ⟨rfl,
    cname_failure_returns_cname_only gwEmpty ⟨"www.example.com.", "example.com.", .a⟩ 3 []
      "app.example.com." [] false true (.deadEnd "app.example.com.") rfl⟩

/-! ## Theorems: direct CNAME query negative responses -/

/-- C9 counterexample: a CNAME query for `missing.example.com.` with no data
in any table (empty resource set, `noDataFound` true, non-apex) returns the
SOA in authority but response code success, not name error. -/
theorem handleCNAMEQuery_no_nxdomain_counterexample :
    processQueryResponse gwEmpty ⟨"missing.example.com.", "example.com.", .cname⟩ 2
        [] [] [] [] false true =
      { answer := [], ns := [gwEmpty.soa "example.com." 2], extra := [], rcode := .success } ∧
    (processQueryResponse gwEmpty ⟨"missing.example.com.", "example.com.", .cname⟩ 2
        [] [] [] [] false true).rcode ≠ .nameError := by
  refine ⟨?_, ?_⟩ <;> decide

/-- C9 (amended): a CNAME-type query on a name with no CNAME data gets the
SOA in the authority section and an empty answer, but the response code is
name error exactly when no data was found at all, the query is not at the
apex, and the lowercased query name contains the substring `nonexistent`;
otherwise the code is success. -/
theorem handleCNAMEQuery_nxdomain_iff_nonexistent (gw : Gateway) (req : Request)
    (soaSerial : Nat) (isRootZoneQuery noDataFound : Bool) :
    (handleCNAMEQuery gw req soaSerial [] isRootZoneQuery noDataFound {}).ns =
        [gw.soa req.zone soaSerial] ∧
    (handleCNAMEQuery gw req soaSerial [] isRootZoneQuery noDataFound {}).answer = [] ∧
    ((handleCNAMEQuery gw req soaSerial [] isRootZoneQuery noDataFound {}).rcode = .nameError ↔
      (noDataFound = true ∧ isRootZoneQuery = false ∧
        containsSubstring (toLowerStr req.name) "nonexistent" = true)) := by
  by_cases hcond : noDataFound && !isRootZoneQuery &&
      containsSubstring (toLowerStr req.name) "nonexistent"
  · simp only [Bool.and_eq_true, Bool.not_eq_true'] at hcond
    obtain ⟨⟨h1, h2⟩, h3⟩ := hcond
    simp [handleCNAMEQuery, setNegativeResponse, h1, h2, h3]
  · simp only [Bool.and_eq_true, Bool.not_eq_true', not_and] at hcond
    have hncond : ¬(noDataFound = true ∧ isRootZoneQuery = false ∧
        containsSubstring (toLowerStr req.name) "nonexistent" = true) := by
      rintro ⟨h1, h2, h3⟩
      exact hcond ⟨h1, h2⟩ h3
    have heq : (noDataFound && !isRootZoneQuery &&
        containsSubstring (toLowerStr req.name) "nonexistent") = false := by
      rw [Bool.eq_false_iff]
      simp only [Bool.and_eq_true, Bool.not_eq_true', ne_eq]
      rintro ⟨⟨h1, h2⟩, h3⟩
      exact hncond ⟨h1, h2, h3⟩
    simp [handleCNAMEQuery, setNegativeResponse, heq, hncond]

/-! ## Theorems: apex and sub-apex dispatch -/

/-- Fixture: gateway with a configured secondary apex label. -/
def gwSecondary : Gateway := { gwEmpty with secondNS := "dns2.kube-system" }

/-- C8 counterexample: `dns2.kube-system.example.com.` lies under the
configured secondary apex label of `example.com.`, yet `checkApexQuery` does
not delegate it (only the primary apex label is tested). -/
theorem checkApexQuery_secondary_not_delegated :
    gwSecondary.secondNS = "dns2.kube-system" ∧
    isSubDomain (gwSecondary.secondNS ++ "." ++ "example.com.")
        "dns2.kube-system.example.com." = true ∧
    checkApexQuery gwSecondary ⟨"dns2.kube-system.example.com.", "example.com.", .a⟩ 1 =
      (false, none) := by
  refine ⟨rfl, ?_, ?_⟩ <;> decide

/-- `subApexAnswers` on an address-typed question keeps exactly the callback
records of the question's type, with owner name and SOA TTL rewritten. -/
theorem subApexAnswers_addr (ttlS : Nat) (qname : String) (qtype : RRType)
    (hq : qtype = .a ∨ qtype = .aaaa) (rrs : List RR) :
    subApexAnswers ttlS qname qtype rrs =
      (rrs.filter (fun rr => rr.rrtype == qtype)).map
        (fun rr => { rr with ttl := ttlS, name := qname }) := by
  induction rrs with
  | nil => rcases hq with rfl | rfl <;> rfl
  | cons rr rest ih =>
    rcases hq with rfl | rfl <;>
    · simp only [subApexAnswers, List.filter_cons]
      by_cases ht : rr.rrtype = RRType.a
      · simp_all
      · by_cases ht2 : rr.rrtype = RRType.aaaa <;> simp_all
  
/-- `subApexAnswers` answers nothing for non-address question types. -/
theorem subApexAnswers_other (ttlS : Nat) (qname : String) (qtype : RRType)
    (hqa : qtype ≠ .a) (hq4 : qtype ≠ .aaaa) (rrs : List RR) :
    subApexAnswers ttlS qname qtype rrs = [] := by
  induction rrs with
  | nil => cases qtype <;> rfl
  | cons rr rest ih =>
    cases qtype <;> first
      | exact absurd rfl hqa
      | exact absurd rfl hq4
      | simpa [subApexAnswers] using ih

/-- C8 (amended): for a single-zone gateway, a non-apex query is delegated
to the apex state machine exactly when it lies under the primary apex label
`<apex>.<zone>` (names under the secondary label are not delegated); at the
apex name itself the machine answers A/AAAA from the external-address
callback (type-filtered, SOA TTL) and answers every other type with an empty
answer and the SOA in authority. -/
theorem checkApexQuery_primary_apex_delegation (gw : Gateway) (req : Request)
    (soaSerial : Nat) (z : String) (hz : gw.zones = [z]) (hne : req.name ≠ z) :
    (checkApexQuery gw req soaSerial =
      if isSubDomain (gw.apex ++ "." ++ z) req.name then
        (false, some (serveSubApex gw req soaSerial))
      else (false, none)) ∧
    ((trimZone req.name req.zone).getD "" = gw.apex → countLabel gw.apex = 2 →
      ((req.qtype = .a ∨ req.qtype = .aaaa →
        (serveSubApex gw req soaSerial).answer =
          ((gw.externalAddrFunc req).filter (fun rr => rr.rrtype == req.qtype)).map
            (fun rr => { rr with ttl := gw.ttlSOA, name := req.name })) ∧
      (req.qtype ≠ .a → req.qtype ≠ .aaaa →
        (serveSubApex gw req soaSerial).answer = [] ∧
        (serveSubApex gw req soaSerial).ns = [gw.soa req.zone soaSerial] ∧
        (serveSubApex gw req soaSerial).rcode = .success))) := by
  constructor
  · rw [checkApexQuery, hz]
    by_cases hsub : isSubDomain (gw.apex ++ "." ++ z) req.name <;>
      simp [checkApexQueryGo, hne, hsub]
  · intro hbase hlabels
    have hserve : serveSubApex gw req soaSerial =
        (if (subApexAnswers gw.ttlSOA req.name req.qtype (gw.externalAddrFunc req)).isEmpty then
          { answer := subApexAnswers gw.ttlSOA req.name req.qtype (gw.externalAddrFunc req),
            ns := [gw.soa req.zone soaSerial] }
        else
          { answer := subApexAnswers gw.ttlSOA req.name req.qtype (gw.externalAddrFunc req) }) := by
      unfold serveSubApex
      rw [hbase, if_pos hlabels, if_neg (show ¬(gw.apex ≠ gw.apex) by simp)]
    constructor
    · intro hq
      rw [hserve, subApexAnswers_addr gw.ttlSOA req.name req.qtype hq]
      split_ifs with hemp
      · simp
      · rfl
    · intro hqa hq4
      rw [hserve, subApexAnswers_other gw.ttlSOA req.name req.qtype hqa hq4]
      exact ⟨rfl, rfl, rfl⟩

/-- Fixture: gateway whose external-address callback returns one A and one
AAAA glue record. -/
def gwApexAddrs : Gateway :=
  { gwEmpty with externalAddrFunc := fun _ =>
      [{ name := "dns1.kube-system.example.com.", rrtype := .a, ttl := 300,
         rdata := ["192.0.2.53"] },
       { name := "dns1.kube-system.example.com.", rrtype := .aaaa, ttl := 300,
         rdata := ["2001:db8::53"] }] }

/-- Witness for C8's amended theorem: A query at the primary apex label is
delegated and answered from the callback; a TXT query there gets the SOA. -/
theorem checkApexQuery_primary_apex_delegation_witness :
    (gwApexAddrs.zones = ["example.com."] ∧
      "dns1.kube-system.example.com." ≠ "example.com." ∧
      (trimZone "dns1.kube-system.example.com." "example.com.").getD "" = gwApexAddrs.apex ∧
      countLabel gwApexAddrs.apex = 2) ∧
    checkApexQuery gwApexAddrs ⟨"dns1.kube-system.example.com.", "example.com.", .a⟩ 4 =
      (false, some (serveSubApex gwApexAddrs
        ⟨"dns1.kube-system.example.com.", "example.com.", .a⟩ 4)) ∧
    (serveSubApex gwApexAddrs ⟨"dns1.kube-system.example.com.", "example.com.", .a⟩ 4).answer =
      [{ name := "dns1.kube-system.example.com.", rrtype := .a, ttl := gwApexAddrs.ttlSOA,
         rdata := ["192.0.2.53"] }] ∧
    (serveSubApex gwApexAddrs ⟨"dns1.kube-system.example.com.", "example.com.", .txt⟩ 4).answer =
      [] ∧
    (serveSubApex gwApexAddrs ⟨"dns1.kube-system.example.com.", "example.com.", .txt⟩ 4).ns =
      [gwApexAddrs.soa "example.com." 4] := by
  have hA := checkApexQuery_primary_apex_delegation gwApexAddrs
    ⟨"dns1.kube-system.example.com.", "example.com.", .a⟩ 4 "example.com." rfl (by decide)
  have hT := checkApexQuery_primary_apex_delegation gwApexAddrs
    ⟨"dns1.kube-system.example.com.", "example.com.", .txt⟩ 4 "example.com." rfl (by decide)
  refine ⟨⟨rfl, by decide, by decide, by decide⟩, ?_, ?_, ?_, ?_⟩
  · have h1 := hA.1
    rwa [if_pos (by decide)] at h1
  · rw [(hA.2 (by decide) (by decide)).1 (Or.inl rfl)]
    decide
  · exact ((hT.2 (by decide) (by decide)).2 (by decide) (by decide)).1
  · exact ((hT.2 (by decide) (by decide)).2 (by decide) (by decide)).2.1

/-! ## Theorems: TTL discipline -/

/-- TTL discipline for answer/authority records: configured low TTL on
address-ish types, SOA TTL on SOA and NS records. -/
def TTLClassified (gw : Gateway) (rr : RR) : Prop :=
  ((rr.rrtype = .a ∨ rr.rrtype = .aaaa ∨ rr.rrtype = .txt ∨ rr.rrtype = .cname) ∧
    rr.ttl = gw.ttlLow) ∨
  ((rr.rrtype = .soa ∨ rr.rrtype = .ns) ∧ rr.ttl = gw.ttlSOA)

/-- Every record the address builder produces carries the requested type and
TTL. -/
theorem buildAddrRecords_mem (t : RRType) (ttl : Nat) (name : String) :
    ∀ (l : List Addr) (dup : List String) (rr : RR),
      rr ∈ buildAddrRecords t ttl name l dup → rr.rrtype = t ∧ rr.ttl = ttl := by
  intro l
  induction l with
  | nil => intro dup rr h; simp [buildAddrRecords] at h
  | cons a rest ih =>
    intro dup rr h
    rw [buildAddrRecords] at h
    by_cases hdup : a.str ∈ dup
    · rw [if_pos hdup] at h
      exact ih dup rr h
    · rw [if_neg hdup] at h
      rcases List.mem_cons.mp h with rfl | h
      · exact ⟨rfl, rfl⟩
      · exact ih _ rr h

/-- Every record the TXT builder produces is a TXT record with the requested
TTL. -/
theorem buildTXTRecords_mem (ttl : Nat) (name : String) :
    ∀ (l : List String) (dup : List String) (rr : RR),
      rr ∈ buildTXTRecords ttl name l dup → rr.rrtype = .txt ∧ rr.ttl = ttl := by
  intro l
  induction l with
  | nil => intro dup rr h; simp [buildTXTRecords] at h
  | cons a rest ih =>
    intro dup rr h
    rw [buildTXTRecords] at h
    by_cases hdup : a ∈ dup
    · rw [if_pos hdup] at h
      exact ih dup rr h
    · rw [if_neg hdup] at h
      rcases List.mem_cons.mp h with rfl | h
      · exact ⟨rfl, rfl⟩
      · exact ih _ rr h

/-- Both nameserver records are NS records with the SOA TTL. -/
theorem nameservers_mem (gw : Gateway) (zone : String) :
    ∀ rr ∈ gw.nameservers zone, rr.rrtype = .ns ∧ rr.ttl = gw.ttlSOA := by
  intro rr h
  rw [Gateway.nameservers] at h
  rcases hns2 : gw.ns2 zone with _ | secondaryNS <;> rw [hns2] at h
  · simp only [List.mem_singleton] at h
    subst h
    exact ⟨rfl, rfl⟩
  · simp only [List.mem_cons, List.mem_singleton, List.not_mem_nil, or_false] at h
    rcases h with h | h
    · subst h; exact ⟨rfl, rfl⟩
    · subst h
      rw [Gateway.ns2] at hns2
      by_cases hsec : gw.secondNS = ""
      · rw [if_pos hsec] at hns2; cases hns2
      · rw [if_neg hsec] at hns2
        injection hns2 with hns2
        rw [← hns2]
        exact ⟨rfl, rfl⟩

/-- Every sub-apex answer record carries the SOA TTL. -/
theorem subApexAnswers_mem (ttlS : Nat) (qname : String) (qtype : RRType)
    (l : List RR) (rr : RR) (h : rr ∈ subApexAnswers ttlS qname qtype l) : rr.ttl = ttlS := by
  by_cases hqa : qtype = RRType.a
  · subst hqa
    rw [subApexAnswers_addr ttlS qname .a (Or.inl rfl) l] at h
    simp only [List.mem_map] at h
    obtain ⟨rr0, _, rfl⟩ := h
    rfl
  · by_cases hq4 : qtype = RRType.aaaa
    · subst hq4
      rw [subApexAnswers_addr ttlS qname .aaaa (Or.inr rfl) l] at h
      simp only [List.mem_map] at h
      obtain ⟨rr0, _, rfl⟩ := h
      rfl
    · rw [subApexAnswers_other ttlS qname qtype hqa hq4 l] at h
      simp at h

/-- `addResolvedAddresses` leaves authority and additional sections
untouched. -/
theorem addResolvedAddresses_ns_extra (gw : Gateway) (cname : String) (addrs : List Addr)
    (needIPv4 needIPv6 : Bool) (m : Msg) :
    (addResolvedAddresses gw cname addrs needIPv4 needIPv6 m).ns = m.ns ∧
    (addResolvedAddresses gw cname addrs needIPv4 needIPv6 m).extra = m.extra := by
  rw [addResolvedAddresses]
  dsimp only
  split_ifs <;> exact ⟨rfl, rfl⟩

/-- Every record of `gw.A` is a low-TTL address record. -/
theorem memA_lowttl (gw : Gateway) (n : String) (l : List Addr) (rr : RR)
    (h : rr ∈ gw.A n l) : (rr.rrtype = .a ∨ rr.rrtype = .aaaa) ∧ rr.ttl = gw.ttlLow := by
  rcases buildAddrRecords_mem _ _ _ _ _ rr h with ⟨h1, h2⟩
  exact ⟨Or.inl h1, h2⟩

/-- Every record of `gw.AAAA` is a low-TTL address record. -/
theorem memAAAA_lowttl (gw : Gateway) (n : String) (l : List Addr) (rr : RR)
    (h : rr ∈ gw.AAAA n l) : (rr.rrtype = .a ∨ rr.rrtype = .aaaa) ∧ rr.ttl = gw.ttlLow := by
  rcases buildAddrRecords_mem _ _ _ _ _ rr h with ⟨h1, h2⟩
  exact ⟨Or.inr h1, h2⟩

/-- Answer records after `addResolvedAddresses` are either inherited or
low-TTL A/AAAA records. -/
theorem addResolvedAddresses_answer_mem (gw : Gateway) (cname : String) (addrs : List Addr)
    (needIPv4 needIPv6 : Bool) (m : Msg) :
    ∀ rr ∈ (addResolvedAddresses gw cname addrs needIPv4 needIPv6 m).answer,
      rr ∈ m.answer ∨ ((rr.rrtype = .a ∨ rr.rrtype = .aaaa) ∧ rr.ttl = gw.ttlLow) := by
  intro rr h
  rw [addResolvedAddresses] at h
  dsimp only at h
  split_ifs at h
  all_goals try exact Or.inl h
  all_goals simp only [List.mem_append, or_assoc] at h
  all_goals
    first
    | (rcases h with h | h | h
       · exact Or.inl h
       · exact Or.inr (memA_lowttl gw _ _ rr h)
       · exact Or.inr (memAAAA_lowttl gw _ _ rr h))
    | (rcases h with h | h
       · exact Or.inl h
       · first
         | exact Or.inr (memA_lowttl gw _ _ rr h)
         | exact Or.inr (memAAAA_lowttl gw _ _ rr h))

/-- Sections produced by the CNAME-with-resolution path: classified answers,
nothing in authority or additional. -/
theorem processCNAMEWithResolution_sections (gw : Gateway) (req : Request) (cname : String)
    (needIPv4 needIPv6 : Bool) :
    (∀ rr ∈ (processCNAMEWithResolution gw req cname needIPv4 needIPv6 {}).answer,
      TTLClassified gw rr) ∧
    (∀ rr ∈ (processCNAMEWithResolution gw req cname needIPv4 needIPv6 {}).ns,
      rr.rrtype = .soa ∧ rr.ttl = gw.ttlSOA) ∧
    (processCNAMEWithResolution gw req cname needIPv4 needIPv6 {}).extra = [] := by
  rw [processCNAMEWithResolution]
  cases hres : resolveCNAMEChain gw cname req.zone gw.cnameMaxDepth with
  | error e =>
    refine ⟨?_, by intro rr h; simp at h, rfl⟩
    intro rr h
    simp only [List.nil_append, List.mem_singleton] at h
    subst h
    exact Or.inl ⟨Or.inr (Or.inr (Or.inr rfl)), rfl⟩
  | ok resolvedAddrs =>
    dsimp only
    by_cases hemp : resolvedAddrs.isEmpty
    · rw [if_pos hemp]
      refine ⟨?_, by intro rr h; simp at h, rfl⟩
      intro rr h
      simp only [List.nil_append, List.mem_singleton] at h
      subst h
      exact Or.inl ⟨Or.inr (Or.inr (Or.inr rfl)), rfl⟩
    · rw [if_neg hemp]
      obtain ⟨hns, hextra⟩ :=
        addResolvedAddresses_ns_extra gw cname resolvedAddrs needIPv4 needIPv6
          { answer := [] ++ [gw.CNAME req.name cname] }
      refine ⟨?_, by intro rr h; rw [hns] at h; simp at h, hextra⟩
      intro rr h
      rcases addResolvedAddresses_answer_mem gw cname resolvedAddrs needIPv4 needIPv6
          { answer := [] ++ [gw.CNAME req.name cname] } rr h with h | ⟨h1, h2⟩
      · simp only [List.nil_append, List.mem_singleton] at h
        subst h
        exact Or.inl ⟨Or.inr (Or.inr (Or.inr rfl)), rfl⟩
      · refine Or.inl ⟨?_, h2⟩
        rcases h1 with h1 | h1
        · exact Or.inl h1
        · exact Or.inr (Or.inl h1)

/-- Sections produced by `handleAddressQuery` on a fresh reply. -/
theorem handleAddressQuery_sections (gw : Gateway) (req : Request) (soaSerial : Nat)
    (addrs : List Addr) (cnames : List String) (isRootZoneQuery isIPv4 : Bool) :
    (∀ rr ∈ (handleAddressQuery gw req soaSerial addrs cnames isRootZoneQuery isIPv4 {}).answer,
      TTLClassified gw rr) ∧
    (∀ rr ∈ (handleAddressQuery gw req soaSerial addrs cnames isRootZoneQuery isIPv4 {}).ns,
      rr.rrtype = .soa ∧ rr.ttl = gw.ttlSOA) ∧
    (handleAddressQuery gw req soaSerial addrs cnames isRootZoneQuery isIPv4 {}).extra = [] := by
  unfold handleAddressQuery
  by_cases hc : addrs.isEmpty && cnames.isEmpty
  · rw [if_pos hc]
    dsimp only [setNegativeResponse]
    split_ifs <;>
      refine ⟨by intro rr h; simp at h, ?_, rfl⟩ <;>
      · intro rr h
        simp only [List.mem_singleton] at h
        subst h
        exact ⟨rfl, rfl⟩
  · rw [if_neg hc]
    cases cnames with
    | cons c rest => exact processCNAMEWithResolution_sections gw req c isIPv4 (!isIPv4)
    | nil =>
      cases isIPv4
      · rw [if_neg (by decide)]
        refine ⟨?_, by intro rr h; simp at h, rfl⟩
        intro rr h
        rcases memAAAA_lowttl gw req.name addrs rr h with ⟨h1, h2⟩
        exact Or.inl ⟨by rcases h1 with h1 | h1 <;> simp [h1], h2⟩
      · rw [if_pos (by decide)]
        refine ⟨?_, by intro rr h; simp at h, rfl⟩
        intro rr h
        rcases memA_lowttl gw req.name addrs rr h with ⟨h1, h2⟩
        exact Or.inl ⟨by rcases h1 with h1 | h1 <;> simp [h1], h2⟩

/-- Sections produced by `handleDataQuery` on a fresh reply. -/
theorem handleDataQuery_sections (gw : Gateway) (req : Request) (soaSerial : Nat)
    (data : List String) (isRootZoneQuery noDataFound : Bool) :
    (∀ rr ∈ (handleDataQuery gw req soaSerial data isRootZoneQuery noDataFound {}).answer,
      TTLClassified gw rr) ∧
    (∀ rr ∈ (handleDataQuery gw req soaSerial data isRootZoneQuery noDataFound {}).ns,
      rr.rrtype = .soa ∧ rr.ttl = gw.ttlSOA) ∧
    (handleDataQuery gw req soaSerial data isRootZoneQuery noDataFound {}).extra = [] := by
  rw [handleDataQuery]
  by_cases hd : data.isEmpty
  · rw [if_pos hd]
    dsimp only [setNegativeResponse]
    split_ifs <;>
      refine ⟨by intro rr h; simp at h, ?_, rfl⟩ <;>
      · intro rr h
        simp only [List.mem_singleton] at h
        subst h
        exact ⟨rfl, rfl⟩
  · rw [if_neg hd]
    refine ⟨?_, by intro rr h; simp at h, rfl⟩
    intro rr h
    rcases buildTXTRecords_mem gw.ttlLow req.name data [] rr h with ⟨h1, h2⟩
    exact Or.inl ⟨Or.inr (Or.inr (Or.inl h1)), h2⟩

/-- Sections produced by `handleCNAMEQuery` on a fresh reply. -/
theorem handleCNAMEQuery_sections (gw : Gateway) (req : Request) (soaSerial : Nat)
    (cnames : List String) (isRootZoneQuery noDataFound : Bool) :
    (∀ rr ∈ (handleCNAMEQuery gw req soaSerial cnames isRootZoneQuery noDataFound {}).answer,
      TTLClassified gw rr) ∧
    (∀ rr ∈ (handleCNAMEQuery gw req soaSerial cnames isRootZoneQuery noDataFound {}).ns,
      rr.rrtype = .soa ∧ rr.ttl = gw.ttlSOA) ∧
    (handleCNAMEQuery gw req soaSerial cnames isRootZoneQuery noDataFound {}).extra = [] := by
  unfold handleCNAMEQuery
  cases cnames with
  | nil =>
    dsimp only [setNegativeResponse]
    split_ifs <;>
      refine ⟨by intro rr h; simp at h, ?_, rfl⟩ <;>
      · intro rr h
        simp only [List.mem_singleton] at h
        subst h
        exact ⟨rfl, rfl⟩
  | cons c rest =>
    refine ⟨?_, by intro rr h; simp at h, rfl⟩
    intro rr h
    simp only [List.mem_singleton] at h
    subst h
    exact Or.inl ⟨Or.inr (Or.inr (Or.inr rfl)), rfl⟩

/-- Sections produced by `handleNSQuery` on a fresh reply. -/
theorem handleNSQuery_sections (gw : Gateway) (req : Request) (soaSerial : Nat)
    (isRootZoneQuery : Bool) :
    (∀ rr ∈ (handleNSQuery gw req soaSerial isRootZoneQuery {}).answer, TTLClassified gw rr) ∧
    (∀ rr ∈ (handleNSQuery gw req soaSerial isRootZoneQuery {}).ns,
      rr.rrtype = .soa ∧ rr.ttl = gw.ttlSOA) ∧
    (∀ rr ∈ (handleNSQuery gw req soaSerial isRootZoneQuery {}).extra, rr.ttl = gw.ttlSOA) := by
  unfold handleNSQuery
  cases isRootZoneQuery
  · rw [if_neg (by decide)]
    dsimp only [setNegativeResponse]
    refine ⟨by intro rr h; simp at h, ?_, by intro rr h; simp at h⟩
    intro rr h
    simp only [List.mem_singleton] at h
    subst h
    exact ⟨rfl, rfl⟩
  · rw [if_pos (by decide)]
    have hred : addExtraRecords gw req { answer := gw.nameservers req.zone } =
        { answer := gw.nameservers req.zone, ns := [],
          extra := (gw.externalAddrFunc req).map (fun rr => { rr with ttl := gw.ttlSOA }),
          rcode := .success } := rfl
    rw [hred]
    refine ⟨?_, by intro rr h; simp at h, ?_⟩
    · intro rr h
      rcases nameservers_mem gw req.zone rr h with ⟨h1, h2⟩
      exact Or.inr ⟨Or.inr h1, h2⟩
    · intro rr h
      simp only [List.mem_map] at h
      obtain ⟨rr0, _, rfl⟩ := h
      rfl

/-- Sections produced by the apex state machine: everything carries the SOA
TTL. -/
theorem serveSubApex_sections (gw : Gateway) (req : Request) (soaSerial : Nat) :
    (∀ rr ∈ (serveSubApex gw req soaSerial).answer, rr.ttl = gw.ttlSOA) ∧
    (∀ rr ∈ (serveSubApex gw req soaSerial).ns, rr.rrtype = .soa ∧ rr.ttl = gw.ttlSOA) ∧
    (serveSubApex gw req soaSerial).extra = [] := by
  rw [serveSubApex]
  by_cases h2 : countLabel ((trimZone req.name req.zone).getD "") = 2
  · rw [if_pos h2]
    by_cases hapex : (trimZone req.name req.zone).getD "" ≠ gw.apex
    · rw [if_pos hapex]
      refine ⟨by intro rr h; simp at h, ?_, rfl⟩
      intro rr h
      simp only [List.mem_singleton] at h
      subst h
      exact ⟨rfl, rfl⟩
    · rw [if_neg hapex]
      dsimp only
      split_ifs with hemp
      · refine ⟨?_, ?_, rfl⟩
        · intro rr h
          exact subApexAnswers_mem gw.ttlSOA req.name req.qtype _ rr h
        · intro rr h
          simp only [List.mem_singleton] at h
          subst h
          exact ⟨rfl, rfl⟩
      · refine ⟨?_, by intro rr h; simp at h, rfl⟩
        intro rr h
        exact subApexAnswers_mem gw.ttlSOA req.name req.qtype _ rr h
  · rw [if_neg h2]
    refine ⟨by intro rr h; simp at h, ?_, rfl⟩
    intro rr h
    simp only [List.mem_singleton] at h
    subst h
    exact ⟨rfl, rfl⟩

/-- Fixture: gateway configured with a low TTL of 30 (the `ttl` option),
distinct from the fixed SOA TTL of 60. -/
def gwLowTTL : Gateway := { gwApexAddrs with ttlLow := 30 }

/-- C5 counterexample: with `ttl 30` configured, the sub-apex A answer built
from the external-address callback carries TTL 60 (the SOA TTL), so an A
record in a response does not carry the configured low TTL. -/
theorem subApex_a_record_not_lowttl :
    gwLowTTL.ttlLow = 30 ∧ gwLowTTL.ttlSOA = 60 ∧
    ∃ rr ∈ (serveSubApex gwLowTTL
        ⟨"dns1.kube-system.example.com.", "example.com.", .a⟩ 1).answer,
      rr.rrtype = .a ∧ rr.ttl ≠ gwLowTTL.ttlLow := by
  refine ⟨rfl, rfl, ?_⟩ 
  decide

/-- C5 (amended): in regular-path responses, answer and authority records
follow the TTL discipline — low TTL on A/AAAA/TXT/CNAME, SOA TTL on SOA and
NS — authority records are SOA records at the SOA TTL, and additional
records carry the SOA TTL; in apex-state-machine responses (including the
A/AAAA answers synthesized from the external-address callback) every record
carries the SOA TTL, with nothing in the additional section. -/
theorem response_ttl_classification (gw : Gateway) (req : Request) (soaSerial : Nat)
    (ipv4Addrs ipv6Addrs : List Addr) (raws cnames : List String)
    (isRootZoneQuery noDataFound : Bool) :
    (∀ rr ∈ (processQueryResponse gw req soaSerial ipv4Addrs ipv6Addrs raws cnames
        isRootZoneQuery noDataFound).answer, TTLClassified gw rr) ∧
    (∀ rr ∈ (processQueryResponse gw req soaSerial ipv4Addrs ipv6Addrs raws cnames
        isRootZoneQuery noDataFound).ns, rr.rrtype = .soa ∧ rr.ttl = gw.ttlSOA) ∧
    (∀ rr ∈ (processQueryResponse gw req soaSerial ipv4Addrs ipv6Addrs raws cnames
        isRootZoneQuery noDataFound).extra, rr.ttl = gw.ttlSOA) ∧
    (∀ rr ∈ (serveSubApex gw req soaSerial).answer, rr.ttl = gw.ttlSOA) ∧
    (∀ rr ∈ (serveSubApex gw req soaSerial).ns, rr.rrtype = .soa ∧ rr.ttl = gw.ttlSOA) ∧
    (serveSubApex gw req soaSerial).extra = [] := by
  obtain ⟨hsa1, hsa2, hsa3⟩ := serveSubApex_sections gw req soaSerial
  refine ⟨?_, ?_, ?_, hsa1, hsa2, hsa3⟩ <;>
  · obtain ⟨name, zone, qtype⟩ := req
    cases qtype
    case a =>
      obtain ⟨h1, h2, h3⟩ := handleAddressQuery_sections gw ⟨name, zone, .a⟩ soaSerial
        ipv4Addrs cnames isRootZoneQuery true
      first
        | exact h1
        | exact h2
        | (rw [show (processQueryResponse gw ⟨name, zone, .a⟩ soaSerial ipv4Addrs ipv6Addrs raws
              cnames isRootZoneQuery noDataFound).extra = [] from h3]
           intro rr h
           simp at h)
    case aaaa =>
      obtain ⟨h1, h2, h3⟩ := handleAddressQuery_sections gw ⟨name, zone, .aaaa⟩ soaSerial
        ipv6Addrs cnames isRootZoneQuery false
      rw [show processQueryResponse gw ⟨name, zone, .aaaa⟩ soaSerial ipv4Addrs ipv6Addrs raws
            cnames isRootZoneQuery noDataFound =
          (if ipv6Addrs.isEmpty && cnames.isEmpty && !ipv4Addrs.isEmpty then
            { handleAddressQuery gw ⟨name, zone, .aaaa⟩ soaSerial ipv6Addrs cnames
                isRootZoneQuery false {} with rcode := .success }
          else handleAddressQuery gw ⟨name, zone, .aaaa⟩ soaSerial ipv6Addrs cnames
            isRootZoneQuery false {}) from rfl]
      split_ifs <;>
        first
          | exact h1
          | exact h2
          | (intro rr h; rw [show ∀ m : Msg, ({ m with rcode := Rcode.success }).extra = m.extra
               from fun m => rfl] at h; rw [h3] at h; simp at h)
          | (intro rr h; rw [h3] at h; simp at h)
    case txt =>
      obtain ⟨h1, h2, h3⟩ := handleDataQuery_sections gw ⟨name, zone, .txt⟩ soaSerial raws
        isRootZoneQuery noDataFound
      first
        | exact h1
        | exact h2
        | (intro rr h; rw [show (processQueryResponse gw ⟨name, zone, .txt⟩ soaSerial ipv4Addrs
              ipv6Addrs raws cnames isRootZoneQuery noDataFound).extra = [] from h3] at h
           simp at h)
    case cname =>
      obtain ⟨h1, h2, h3⟩ := handleCNAMEQuery_sections gw ⟨name, zone, .cname⟩ soaSerial cnames
        isRootZoneQuery noDataFound
      first
        | exact h1
        | exact h2
        | (intro rr h; rw [show (processQueryResponse gw ⟨name, zone, .cname⟩ soaSerial ipv4Addrs
              ipv6Addrs raws cnames isRootZoneQuery noDataFound).extra = [] from h3] at h
           simp at h)
    case soa =>
      dsimp only [processQueryResponse]
      first
        | (intro rr h
           simp only [List.mem_singleton] at h
           subst h
           exact Or.inr ⟨Or.inl rfl, rfl⟩
           done)
        | (intro rr h; simp at h; done)
    case ns =>
      obtain ⟨h1, h2, h3⟩ := handleNSQuery_sections gw ⟨name, zone, .ns⟩ soaSerial isRootZoneQuery
      first
        | exact h1
        | exact h2
        | exact h3
    case other =>
      dsimp only [processQueryResponse, setNegativeResponse]
      first
        | (intro rr h; simp at h; done)
        | (intro rr h
           simp only [List.mem_singleton] at h
           subst h
           exact ⟨rfl, rfl⟩
           done)

/-- Witness for C5 at an NS query on the apex: the NS answer record is
classified (SOA TTL), and the sub-apex A answer carries the SOA TTL. -/
theorem response_ttl_classification_witness :
    (gwApexAddrs.ns1 "example.com." ∈ (processQueryResponse gwApexAddrs
        ⟨"example.com.", "example.com.", .ns⟩ 4 [] [] [] [] true false).answer ∧
      TTLClassified gwApexAddrs (gwApexAddrs.ns1 "example.com.")) ∧
    (∃ rr, rr ∈ (serveSubApex gwApexAddrs
        ⟨"dns1.kube-system.example.com.", "example.com.", .a⟩ 4).answer ∧
      rr.ttl = gwApexAddrs.ttlSOA) := by
  have h := response_ttl_classification gwApexAddrs ⟨"example.com.", "example.com.", .ns⟩ 4
    [] [] [] [] true false
  have h2 := response_ttl_classification gwApexAddrs
    ⟨"dns1.kube-system.example.com.", "example.com.", .a⟩ 4 [] [] [] [] false false
  refine ⟨⟨by decide, h.1 (gwApexAddrs.ns1 "example.com.") (by decide)⟩, ?_⟩
  refine ⟨RR.mk "dns1.kube-system.example.com." .a gwApexAddrs.ttlSOA ["192.0.2.53"] 0,
    by decide, ?_⟩
  exact h2.2.2.2.1 _ (by decide)

/-! ## Theorems: zone transfer -/

/-- One-step characterization of the byte-wise lexicographic order. -/
theorem lexLeChars_cons_iff (x y : Char) (xs ys : List Char) :
    lexLeChars (x :: xs) (y :: ys) = true ↔ x < y ∨ (x = y ∧ lexLeChars xs ys = true) := by
  rw [lexLeChars]
  rcases lt_trichotomy x y with h | h | h
  · simp [h]
  · subst h
    simp [lt_irrefl]
  · simp [lt_asymm h, h, (ne_of_gt h : x ≠ y)]

/-- `lexLeChars` is total. -/
theorem lexLeChars_total (a b : List Char) : lexLeChars a b = true ∨ lexLeChars b a = true := by
  induction a generalizing b with
  | nil => left; rfl
  | cons x xs ih =>
    cases b with
    | nil => right; rfl
    | cons y ys =>
      rw [lexLeChars_cons_iff, lexLeChars_cons_iff]
      rcases lt_trichotomy x y with h | h | h
      · exact Or.inl (Or.inl h)
      · subst h
        rcases ih ys with h2 | h2
        · exact Or.inl (Or.inr ⟨rfl, h2⟩)
        · exact Or.inr (Or.inr ⟨rfl, h2⟩)
      · exact Or.inr (Or.inl h)

/-- `lexLeChars` is transitive. -/
theorem lexLeChars_trans :
    ∀ a b c : List Char, lexLeChars a b = true → lexLeChars b c = true →
      lexLeChars a c = true := by
  intro a
  induction a with
  | nil => intro b c h1 h2; rfl
  | cons x xs ih =>
    intro b c h1 h2
    cases b with
    | nil => simp [lexLeChars] at h1
    | cons y ys =>
      cases c with
      | nil => simp [lexLeChars] at h2
      | cons z zs =>
        rw [lexLeChars_cons_iff] at h1 h2 ⊢
        rcases h1 with h1 | ⟨rfl, h1⟩
        · rcases h2 with h2 | ⟨rfl, h2⟩
          · exact Or.inl (lt_trans h1 h2)
          · exact Or.inl h1
        · rcases h2 with h2 | ⟨rfl, h2⟩
          · exact Or.inl h2
          · exact Or.inr ⟨rfl, ih ys zs h1 h2⟩

/-- The owner keys of the collected record groups come out of the sort
pairwise in ascending `sort.Strings` order. -/
theorem sortedOwnerKeys_pairwise (collected : List (String × List RR)) :
    List.Pairwise (fun a b => lexLe a b = true) (sortedOwnerKeys collected) := by
  rw [sortedOwnerKeys]
  exact List.sorted_mergeSort
    (fun a b c h1 h2 => lexLeChars_trans a.data b.data c.data h1 h2)
    (fun a b => by simpa [lexLe] using lexLeChars_total a.data b.data)
    (collected.map Prod.fst)

/-- C4: a transfer of an authoritative zone with caller serial 0 (or any
serial different from the current one) produces the full stream: it opens
with the zone SOA, closes with that identical SOA record, and between the
apex-side groups and the closing SOA the per-owner-name record groups are
emitted in ascending lexicographic owner-name order. -/
theorem transfer_bracketed_sorted (gw : Gateway) (hasSynced : Bool)
    (collected : List (String × List RR)) (soaSerial : Nat) (zone : String) (serial : Nat)
    (hzone : zonesMatches gw.zones zone ≠ "")
    (hser : serial = 0 ∨ serial ≠ soaSerial) :
    Transfer gw hasSynced collected soaSerial zone serial =
      some ([[gw.soa zone soaSerial]] ++ apexGroups gw zone ++
        transferResources hasSynced collected ++ [[gw.soa zone soaSerial]]) ∧
    (∀ stream, Transfer gw hasSynced collected soaSerial zone serial = some stream →
      stream.head? = some [gw.soa zone soaSerial] ∧
      stream.getLast? = some [gw.soa zone soaSerial]) ∧
    transferResources hasSynced collected =
      (if hasSynced then (sortedOwnerKeys collected).map (lookupRecords collected) else []) ∧
    List.Pairwise (fun a b => lexLe a b = true) (sortedOwnerKeys collected) := by
  have hne : ¬(serial ≠ 0 ∧ (gw.soa zone soaSerial).serial = serial) := by
    rcases hser with rfl | hser
    · rintro ⟨h, _⟩; exact h rfl
    · rintro ⟨_, h⟩
      exact hser (by simpa [Gateway.soa] using h.symm)
  have htr : Transfer gw hasSynced collected soaSerial zone serial =
      some ([[gw.soa zone soaSerial]] ++ apexGroups gw zone ++
        transferResources hasSynced collected ++ [[gw.soa zone soaSerial]]) := by
    rw [Transfer, if_neg (by simpa using hzone)]
    dsimp only
    rw [if_neg hne]
  refine ⟨htr, ?_, ?_, sortedOwnerKeys_pairwise collected⟩
  · intro stream hstream
    rw [htr] at hstream
    injection hstream with hstream
    subst hstream
    constructor
    · rfl
    · rw [show [[gw.soa zone soaSerial]] ++ apexGroups gw zone ++
          transferResources hasSynced collected ++ [[gw.soa zone soaSerial]] =
          ([[gw.soa zone soaSerial]] ++ apexGroups gw zone ++
            transferResources hasSynced collected) ++ [[gw.soa zone soaSerial]] by
          simp [List.append_assoc]]
      exact List.getLast?_concat _
  · rw [transferResources]
    cases hasSynced <;> rfl

/-- Witness for C4 on a two-name snapshot with caller serial 0: the emitted
key order is `a.` before `b.` even though collection order was reversed. -/
theorem transfer_bracketed_sorted_witness :
    (zonesMatches gwApexAddrs.zones "example.com." ≠ "" ∧ ((0 : Nat) = 0 ∨ (0 : Nat) ≠ 7)) ∧
    Transfer gwApexAddrs true
        [("b.example.com.", [RR.mk "b.example.com." .a 60 ["192.0.2.2"] 0]),
         ("a.example.com.", [RR.mk "a.example.com." .a 60 ["192.0.2.1"] 0])] 7 "example.com." 0 =
      some ([[gwApexAddrs.soa "example.com." 7]] ++ apexGroups gwApexAddrs "example.com." ++
        transferResources true
          [("b.example.com.", [RR.mk "b.example.com." .a 60 ["192.0.2.2"] 0]),
           ("a.example.com.", [RR.mk "a.example.com." .a 60 ["192.0.2.1"] 0])] ++
        [[gwApexAddrs.soa "example.com." 7]]) := by
  refine ⟨⟨by decide, Or.inl rfl⟩, ?_⟩
  exact (transfer_bracketed_sorted gwApexAddrs true
    [("b.example.com.", [RR.mk "b.example.com." .a 60 ["192.0.2.2"] 0]),
     ("a.example.com.", [RR.mk "a.example.com." .a 60 ["192.0.2.1"] 0])] 7 "example.com." 0
    (by decide) (Or.inl rfl)).1
